import Mathlib

/-!
Verification of the adaptive image-streaming engine
(`src/block/stream.c`, `src/block/iops_tracker.c`).

The development shallowly embeds the main copy loop of `stream_run`,
the adaptive-threshold calibration block, `stream_prepare`,
the `stream_start` assertion preconditions, and the IOPS tracker.
External collaborators (graph queries, the copy backend, the error-action
policy of the job host, cancellation, throughput samples) are supplied
as oracle functions in an environment record; the embedded code mirrors
the C control flow over those oracles.  C `double` values (the adaptive
threshold and throughput samples) are modelled as rationals; machine
integers are modelled as `Int`/`Nat` (no arithmetic in the loop comes
near 2^63, so no wrap-around is reachable or modelled).
-/

/-- `STREAM_CHUNK` from stream.c: fixed 512 KiB chunk size. -/
def STREAM_CHUNK : Nat := 512 * 1024

/-- The three values of `BlockErrorAction` returned by the job host's
`block_job_error_action`. -/
inductive ErrAction
  | stop
  | report
  | ignore
deriving DecidableEq, Repr

/-- Observable events emitted by one iteration of the copy loop, in the
order the corresponding calls appear in `stream_run`. -/
inductive StreamEvent
  | ratelimitSleep
  | cancelCheck (c : Bool)
  | adaptivePause
  | classify (offset : Nat)
  | copyOp (offset n : Nat)
  | progress (n : Nat)
  | ratelimitProcessed (n : Nat)
deriving DecidableEq, Repr

/-- Environment of the `stream_run` copy loop: the image length and the
external collaborators, indexed by iteration number so that transient
failures and cancellation schedules can be expressed.
`isAllocated i off bytes` models `bdrv_co_is_allocated` returning
`(ret, *pnum)`; `isAllocatedAbove i off bytes` models
`bdrv_co_is_allocated_above`; `populate i off n` models the return of
`stream_populate`; `errorAction e` models
`block_job_error_action(job, on_error, true, e)` for positive errno `e`. -/
structure LoopEnv where
  len : Nat
  adaptive : Bool
  cancelled : Nat → Bool
  isAllocated : Nat → Nat → Nat → Int × Nat
  isAllocatedAbove : Nat → Nat → Nat → Int × Nat
  populate : Nat → Nat → Nat → Int
  errorAction : Int → ErrAction

/-- Mutable state of the copy loop, plus observation fields:
`progressTotal` accumulates `job_progress_update` amounts,
`copiedBytes` accumulates `block_job_ratelimit_processed_bytes` amounts,
`copyCount` counts `stream_populate` invocations, `chunks` records the
`(offset, n)` pair of every iteration that reached the progress-publishing
step, and `errors` records every return code stored by the
`if (error == 0) error = ret` line, in order. -/
structure LoopState where
  offset : Nat
  error : Int
  progressTotal : Nat
  copiedBytes : Nat
  copyCount : Nat
  chunks : List (Nat × Nat)
  errors : List Int
deriving DecidableEq, Repr

/-- Initial loop state: `offset = 0`, `error = 0`, nothing observed. -/
def initState : LoopState :=
  { offset := 0, error := 0, progressTotal := 0, copiedBytes := 0,
    copyCount := 0, chunks := [], errors := [] }

/-- The chunk-classification block of `stream_run` (the
`WITH_GRAPH_RDLOCK_GUARD` section): returns `(copy, ret, n)` exactly as
computed by the C code at the given offset. -/
def classifyChunk (env : LoopEnv) (i : Nat) (offset : Nat) : Bool × Int × Nat :=
  let q1 := env.isAllocated i offset STREAM_CHUNK
  if q1.1 = 1 then
    (false, q1.1, q1.2)
  else if 0 ≤ q1.1 then
    let q2 := env.isAllocatedAbove i offset q1.2
    let n := if q2.1 = 0 ∧ q2.2 = 0 then env.len - offset else q2.2
    (decide (0 < q2.1), q2.1, n)
  else
    (false, q1.1, q1.2)

/-- Result of one iteration of the loop body: continue with a new state
(`next`, covering both normal advance and the stop-action retry whose
`n = 0`), break on cancellation, or break on a report action. -/
inductive StepResult
  | next (st : LoopState) (tr : List StreamEvent)
  | brkCancel (st : LoopState) (tr : List StreamEvent)
  | brkReport (st : LoopState) (tr : List StreamEvent)
deriving DecidableEq, Repr

/-- State carried by a step result. -/
def StepResult.state : StepResult → LoopState
  | .next st _ => st
  | .brkCancel st _ => st
  | .brkReport st _ => st

/-- Trace carried by a step result. -/
def StepResult.trace : StepResult → List StreamEvent
  | .next _ tr => tr
  | .brkCancel _ tr => tr
  | .brkReport _ tr => tr

/-- Whether a step result continues the loop. -/
def StepResult.isNext : StepResult → Bool
  | .next _ _ => true
  | _ => false

/-- Whether a step result is a report-action break. -/
def StepResult.isReport : StepResult → Bool
  | .brkReport _ _ => true
  | _ => false

/-- State change of the progress-publishing tail of an iteration:
`offset += n`, `job_progress_update(n)` and, only when a copy happened,
`block_job_ratelimit_processed_bytes(n)`.  Also records the chunk. -/
def advanceState (st : LoopState) (copy : Bool) (n : Nat) : LoopState :=
  { st with offset := st.offset + n,
            progressTotal := st.progressTotal + n,
            copiedBytes := st.copiedBytes + (if copy then n else 0),
            chunks := st.chunks ++ [(st.offset, n)] }

/-- The `if (error == 0) error = ret` line of `stream_run`; the
observation list `errors` records every code that reached this line. -/
def recordError (st : LoopState) (ret : Int) : LoopState :=
  { st with error := if st.error = 0 then ret else st.error,
            errors := st.errors ++ [ret] }

/-- Events of the progress-publishing tail of an iteration. -/
def progressEvents (copy : Bool) (n : Nat) : List StreamEvent :=
  StreamEvent.progress n :: (if copy then [StreamEvent.ratelimitProcessed n] else [])

/-- The error-handling tail of the loop body (`if (ret < 0) ...` through
the progress update), given the classification/copy outcome. -/
def handleResult (env : LoopEnv) (st : LoopState) (tr : List StreamEvent)
    (copy : Bool) (ret : Int) (n : Nat) : StepResult :=
  if ret < 0 then
    match env.errorAction (-ret) with
    | .stop => .next st tr
    | .ignore => .next (advanceState (recordError st ret) copy n) (tr ++ progressEvents copy n)
    | .report => .brkReport (recordError st ret) tr
  else
    .next (advanceState st copy n) (tr ++ progressEvents copy n)

/-- One iteration of the `for (; offset < len; offset += n)` body of
`stream_run`: rate-limiter sleep, cancellation check, optional adaptive
pause, chunk classification, optional copy, error handling, progress. -/
def stream_iter (env : LoopEnv) (i : Nat) (st : LoopState) : StepResult :=
  if env.cancelled i then
    .brkCancel st [StreamEvent.ratelimitSleep, StreamEvent.cancelCheck true]
  else
    let c := classifyChunk env i st.offset
    let copy := c.1
    let n := c.2.2
    let ret := if copy then env.populate i st.offset n else c.2.1
    let st1 := if copy then { st with copyCount := st.copyCount + 1 } else st
    let tr := [StreamEvent.ratelimitSleep, StreamEvent.cancelCheck false] ++
        (if env.adaptive then [StreamEvent.adaptivePause] else []) ++
        [StreamEvent.classify st.offset] ++
        (if copy then [StreamEvent.copyOp st.offset n] else [])
    handleResult env st1 tr copy ret n

/-- The final `ret` value of an iteration (after the optional
`stream_populate` call), whose sign decides the error handling. -/
def iterRet (env : LoopEnv) (i : Nat) (st : LoopState) : Int :=
  let c := classifyChunk env i st.offset
  if c.1 then env.populate i st.offset c.2.2 else c.2.1

/-- How a run of the loop ended. -/
inductive RunOutcome
  | completed
  | cancelledOut
  | reported
  | outOfFuel
deriving DecidableEq, Repr

/-- Result of running the loop: outcome, final state, event trace. -/
structure RunResult where
  outcome : RunOutcome
  st : LoopState
  trace : List StreamEvent
deriving DecidableEq, Repr

/-- Fuel-indexed unfolding of the `stream_run` main loop, starting at
iteration number `i` in state `st`.  `outOfFuel` marks runs that did not
terminate within the given fuel (e.g. indefinite stop-action retries). -/
def stream_loop (env : LoopEnv) : Nat → Nat → LoopState → RunResult
  | 0, _, st => { outcome := .outOfFuel, st := st, trace := [] }
  | fuel + 1, i, st =>
    if st.offset < env.len then
      match stream_iter env i st with
      | .next st' tr =>
        let r := stream_loop env fuel (i + 1) st'
        { outcome := r.outcome, st := r.st, trace := tr ++ r.trace }
      | .brkCancel st' tr => { outcome := .cancelledOut, st := st', trace := tr }
      | .brkReport st' tr => { outcome := .reported, st := st', trace := tr }
    else
      { outcome := .completed, st := st, trace := [] }

/-- Observable events of the calibration block of `stream_run`. -/
inductive CalibEvent
  | sleep5s
  | sample (i : Nat)
deriving DecidableEq, Repr

/-- The calibration block of `stream_run` (the
`is_iops_tracker_enabled(...) && s->adaptive_threshold < 1` body):
three iterations of a 5-second sleep followed by a throughput sample
weighted by the supplied percentage, then the average; otherwise the
supplied threshold is kept unchanged.  Returns the final threshold and
the calibration events. -/
def stream_calibrate (trackerEnabled : Bool) (threshold : Rat)
    (samples : Nat → Rat) : Rat × List CalibEvent :=
  if trackerEnabled = true ∧ threshold < 1 then
    ((((List.range 3).foldl (fun acc i => acc + samples i * threshold) 0) / 3),
     (List.range 3).foldl
       (fun evs i => evs ++ [CalibEvent.sleep5s, CalibEvent.sample i]) [])
  else
    (threshold, [])

/-- Environment of `stream_run` as a whole: the pre-loop queries, the
adaptive configuration, throughput samples, and the loop oracles. -/
structure RunEnv where
  nothingToStream : Bool
  getLength : Int
  adaptive_stream : Bool
  trackerEnableOk : Bool
  adaptive_threshold : Rat
  samples : Nat → Rat
  cancelled : Nat → Bool
  isAllocated : Nat → Nat → Nat → Int × Nat
  isAllocatedAbove : Nat → Nat → Nat → Int × Nat
  populate : Nat → Nat → Nat → Int
  errorAction : Int → ErrAction

/-- The loop environment induced by a `stream_run` environment. -/
def RunEnv.loopEnv (env : RunEnv) : LoopEnv :=
  { len := env.getLength.toNat,
    adaptive := env.adaptive_stream,
    cancelled := env.cancelled,
    isAllocated := env.isAllocated,
    isAllocatedAbove := env.isAllocatedAbove,
    populate := env.populate,
    errorAction := env.errorAction }

/-- Result of `stream_run`: return value, the threshold in effect after
the calibration block, the calibration events, and the loop result
(`none` when the loop was never entered). -/
structure StreamRunResult where
  ret : Int
  threshold : Rat
  calibEvents : List CalibEvent
  loopResult : Option RunResult

/-- `stream_run`: the nothing-to-stream early return, the negative
length early return, tracker enablement (`s->adaptive_stream &&
enable_iops_tracker(...)`), the calibration block, the main loop, and
the final `return error`. -/
def stream_run (env : RunEnv) (fuel : Nat) : StreamRunResult :=
  if env.nothingToStream then
    { ret := 0, threshold := env.adaptive_threshold, calibEvents := [], loopResult := none }
  else if env.getLength < 0 then
    { ret := env.getLength, threshold := env.adaptive_threshold,
      calibEvents := [], loopResult := none }
  else
    let trackerEnabled := env.adaptive_stream && env.trackerEnableOk
    let c := stream_calibrate trackerEnabled env.adaptive_threshold env.samples
    let r := stream_loop env.loopEnv fuel 0 initState
    { ret := r.st.error, threshold := c.1, calibEvents := c.2, loopResult := some r }

/-- Driver data consulted by `stream_prepare`:
`format_name` and the optional `protocol_name`. -/
structure DriverInfo where
  format_name : String
  protocol_name : Option String
deriving DecidableEq, Repr

/-- The node data of `unfiltered_base` consulted by `stream_prepare`. -/
structure NodeInfo where
  filename : String
  drv : Option DriverInfo
deriving DecidableEq, Repr

/-- Environment of `stream_prepare`: whether `bdrv_cow_bs(unfiltered_bs)`
is non-null, the `unfiltered_base` node data, whether
`bdrv_set_backing_hd_drained` set `local_err`, and the return value of
`bdrv_change_backing_file`. -/
structure PrepEnv where
  hasCow : Bool
  unfiltered_base : Option NodeInfo
  setBackingErr : Bool
  changeBackingRet : Int
deriving DecidableEq, Repr

/-- Result of `stream_prepare`: the return value, whether the COR filter
was dropped, whether the backing rewrite was attempted, and the
`base_id`/`base_fmt` strings passed to `bdrv_change_backing_file`. -/
structure PrepResult where
  ret : Int
  filterDropped : Bool
  rewroteBacking : Bool
  base_id : Option String
  base_fmt : Option String
deriving DecidableEq, Repr

/-- `stream_prepare`: drop the COR filter unconditionally; when the top
image still has a COW child, compute `base_id` (caller-supplied string,
else the discovered node's filename) and `base_fmt` ("raw" when
`backing_mask_protocol` is set and the discovered driver has a protocol
name, else its format name), rewrite the backing link, and return
`-EPERM` (= -1) when `bdrv_set_backing_hd_drained` failed, else the
`bdrv_change_backing_file` result; with no COW child, return 0. -/
def stream_prepare (backing_file_str : Option String)
    (backing_mask_protocol : Bool) (env : PrepEnv) : PrepResult :=
  if env.hasCow then
    let ids : Option String × Option String :=
      match env.unfiltered_base with
      | some ub =>
        (some (backing_file_str.getD ub.filename),
         match ub.drv with
         | some d =>
           if backing_mask_protocol ∧ d.protocol_name.isSome then some "raw"
           else some d.format_name
         | none => none)
      | none => (none, none)
    let ret0 := env.changeBackingRet
    let ret1 := if env.setBackingErr then (-1 : Int) else ret0
    { ret := ret1, filterDropped := true, rewroteBacking := true,
      base_id := ids.1, base_fmt := ids.2 }
  else
    { ret := 0, filterDropped := true, rewroteBacking := false,
      base_id := none, base_fmt := none }

/-- Atomic actions of the IOPS tracker, at the granularity the source's
locking imposes: `update n` is `iops_tracker_update` (one step, it holds
the mutex throughout); `sampleRead` is the locked part of
`iops_tracker_get_iops` (read of `operations`); `sampleReset` is the
`iops_tracker_init` call that `iops_tracker_get_iops` performs AFTER
releasing the mutex, hence as a separate step. -/
inductive TrackerOp
  | update (n : Int)
  | sampleRead
  | sampleReset
deriving DecidableEq, Repr

/-- Execute a history of tracker actions on the `operations` counter,
returning the final counter and the list of counts read by the samples
(in order). -/
def execTracker : List TrackerOp → Int → Int × List Int
  | [], ops => (ops, [])
  | TrackerOp.update n :: rest, ops => execTracker rest (ops + n)
  | TrackerOp.sampleRead :: rest, ops =>
    let r := execTracker rest ops
    (r.1, ops :: r.2)
  | TrackerOp.sampleReset :: rest, _ => execTracker rest 0

/-- Sum of the update amounts recorded in a history. -/
def totalRecorded : List TrackerOp → Int
  | [] => 0
  | TrackerOp.update n :: rest => n + totalRecorded rest
  | _ :: rest => totalRecorded rest

/-- `Interleave xs ys zs`: `zs` is an interleaving of the two threads'
action sequences `xs` and `ys`, preserving each thread's order.  Because
every action above is a single atomic step, every interleaving is
admitted by the source's locking; in particular nothing separates a
`sampleRead` from its `sampleReset`, since the mutex is released between
them. -/
inductive Interleave : List TrackerOp → List TrackerOp → List TrackerOp → Prop
  | nil : Interleave [] [] []
  | left {a xs ys zs} : Interleave xs ys zs → Interleave (a :: xs) ys (a :: zs)
  | right {b xs ys zs} : Interleave xs ys zs → Interleave xs (b :: ys) (b :: zs)

/-- The action sequence of a sampler thread calling
`iops_tracker_get_iops` twice. -/
def samplerTwice : List TrackerOp :=
  [TrackerOp.sampleRead, TrackerOp.sampleReset,
   TrackerOp.sampleRead, TrackerOp.sampleReset]

/-- The action sequence of an updater thread calling
`iops_tracker_update` with 5 and then 3. -/
def updaterProg : List TrackerOp :=
  [TrackerOp.update 5, TrackerOp.update 3]

/-- A history admitted by the source's locking in which the second
update lands between the unlocked read and the reset of the first
`iops_tracker_get_iops` call. -/
def lostUpdateHistory : List TrackerOp :=
  [TrackerOp.update 5, TrackerOp.sampleRead, TrackerOp.update 3,
   TrackerOp.sampleReset, TrackerOp.sampleRead, TrackerOp.sampleReset]

/-- Outcome of the assertion prologue of `stream_start`. -/
inductive StartCheck
  | assertBaseBottom
  | assertBackingBottom
  | proceed
deriving DecidableEq, Repr

/-- The two assertions at the top of `stream_start`, in source order:
`assert(!(base && bottom))` then `assert(!(backing_file_str && bottom))`.
Arguments are the null-ness of the three pointer parameters. -/
def stream_start_check (base bottom backing_file_str : Bool) : StartCheck :=
  if base && bottom then StartCheck.assertBaseBottom
  else if backing_file_str && bottom then StartCheck.assertBackingBottom
  else StartCheck.proceed

/-- Contract of the external allocation queries, as documented for
`bdrv_co_is_allocated` / `bdrv_co_is_allocated_above`: on success the
reported run is non-empty, no longer than the requested range, and stays
inside the image; on failure the reported run length is zero. -/
def EnvWF (env : LoopEnv) : Prop :=
  (∀ i off, off < env.len →
    (0 ≤ (env.isAllocated i off STREAM_CHUNK).1 →
      1 ≤ (env.isAllocated i off STREAM_CHUNK).2 ∧
      (env.isAllocated i off STREAM_CHUNK).2 ≤ STREAM_CHUNK ∧
      (env.isAllocated i off STREAM_CHUNK).2 ≤ env.len - off) ∧
    ((env.isAllocated i off STREAM_CHUNK).1 < 0 →
      (env.isAllocated i off STREAM_CHUNK).2 = 0)) ∧
  (∀ i off m, off < env.len → 1 ≤ m → m ≤ env.len - off →
    (0 ≤ (env.isAllocatedAbove i off m).1 → (env.isAllocatedAbove i off m).2 ≤ m) ∧
    (0 < (env.isAllocatedAbove i off m).1 → 1 ≤ (env.isAllocatedAbove i off m).2) ∧
    ((env.isAllocatedAbove i off m).1 < 0 → (env.isAllocatedAbove i off m).2 = 0))

/-- `tiles l a b`: the chunk list `l` tiles the byte range `[a, b)`
contiguously with non-empty chunks: each chunk starts where the previous
one ended, the first starts at `a`, the last ends at `b`. -/
def tiles : List (Nat × Nat) → Nat → Nat → Prop
  | [], a, b => a = b
  | c :: l, a, b => c.1 = a ∧ 0 < c.2 ∧ tiles l (a + c.2) b

/-- The advancing chunks of a run: those with a positive length (a
stop-action retry or a zero-length error chunk advances by 0). -/
def advancing (cs : List (Nat × Nat)) : List (Nat × Nat) :=
  cs.filter (fun c => decide (0 < c.2))

/-- Run invariant of the copy loop: the offset stays within the image,
the published progress equals the offset, and the advancing chunks
recorded so far tile `[0, offset)`. -/
def LoopInv (env : LoopEnv) (st : LoopState) : Prop :=
  st.offset ≤ env.len ∧ st.progressTotal = st.offset ∧
    tiles (advancing st.chunks) 0 st.offset

/-- Error-accumulator invariant: `error` is the first recorded error
code (0 when none), and every recorded code is negative. -/
def ErrInv (st : LoopState) : Prop :=
  st.error = st.errors.head?.getD 0 ∧ ∀ e ∈ st.errors, e < 0

/-- Concrete loop environment: 2 MiB image, nothing allocated anywhere
above the base boundary, no errors, no cancellation, adaptive off. -/
def envNoAlloc : LoopEnv :=
  { len := 2097152, adaptive := false, cancelled := fun _ => false,
    isAllocated := fun _ off bytes => (0, min bytes (2097152 - off)),
    isAllocatedAbove := fun _ _ m => (0, m),
    populate := fun _ _ _ => 0,
    errorAction := fun _ => ErrAction.report }

/-- Concrete loop environment for the end-to-end scenario of the spec:
2 MiB image, only `[1 MiB, 1.5 MiB)` allocated in an intermediate image,
nothing in the top image, no errors, no cancellation. -/
def envScenario : LoopEnv :=
  { len := 2097152, adaptive := false, cancelled := fun _ => false,
    isAllocated := fun _ off bytes => (0, min bytes (2097152 - off)),
    isAllocatedAbove := fun _ off m => (if off = 1048576 then 1 else 0, m),
    populate := fun _ _ _ => 0,
    errorAction := fun _ => ErrAction.report }

/-- Concrete loop environment where every chunk needs a copy and the
copy at offset 0 fails with -5 (EIO); error action is report. -/
def envReportFail : LoopEnv :=
  { len := 1048576, adaptive := false, cancelled := fun _ => false,
    isAllocated := fun _ off bytes => (0, min bytes (1048576 - off)),
    isAllocatedAbove := fun _ _ m => (1, m),
    populate := fun _ off _ => if off = 0 then -5 else 0,
    errorAction := fun _ => ErrAction.report }

/-- Same failure pattern with an ignore error action: the copy at
offset 0 fails with -5, later chunks copy fine. -/
def envIgnoreFail : LoopEnv :=
  { len := 1048576, adaptive := false, cancelled := fun _ => false,
    isAllocated := fun _ off bytes => (0, min bytes (1048576 - off)),
    isAllocatedAbove := fun _ _ m => (1, m),
    populate := fun _ off _ => if off = 0 then -5 else 0,
    errorAction := fun _ => ErrAction.ignore }

/-- Stop error action with a transient failure: the copy attempted at
iteration 0 fails with -5, every retry succeeds. -/
def envStopFail : LoopEnv :=
  { len := 1048576, adaptive := false, cancelled := fun _ => false,
    isAllocated := fun _ off bytes => (0, min bytes (1048576 - off)),
    isAllocatedAbove := fun _ _ m => (1, m),
    populate := fun i _ _ => if i = 0 then -5 else 0,
    errorAction := fun _ => ErrAction.stop }

/-- Environment that requests cancellation from iteration 2 on,
adaptive mode enabled. -/
def envCancelAt2 : LoopEnv :=
  { len := 2097152, adaptive := true, cancelled := fun i => decide (2 ≤ i),
    isAllocated := fun _ off bytes => (0, min bytes (2097152 - off)),
    isAllocatedAbove := fun _ _ m => (1, m),
    populate := fun _ _ _ => 0,
    errorAction := fun _ => ErrAction.report }

theorem tiles_le {l : List (Nat × Nat)} : ∀ {a b : Nat}, tiles l a b → a ≤ b := by
  induction l with
  | nil => intro a b h; simp only [tiles] at h; omega
  | cons c l ih =>
    intro a b h
    simp only [tiles] at h
    have := ih h.2.2
    omega

theorem tiles_snoc {l : List (Nat × Nat)} : ∀ {a b n : Nat}, tiles l a b → 0 < n →
    tiles (l ++ [(b, n)]) a (b + n) := by
  induction l with
  | nil =>
    intro a b n h hn
    simp only [tiles] at h
    subst h
    simp only [List.nil_append, tiles]
    exact ⟨trivial, hn, trivial⟩
  | cons c l ih =>
    intro a b n h hn
    simp only [tiles] at h
    simp only [List.cons_append, tiles]
    exact ⟨h.1, h.2.1, ih h.2.2 hn⟩

theorem tiles_mem_bounds {l : List (Nat × Nat)} : ∀ {a b : Nat}, tiles l a b →
    ∀ c ∈ l, a ≤ c.1 ∧ c.1 + c.2 ≤ b := by
  induction l with
  | nil => intro a b _ c hc; simp at hc
  | cons d l ih =>
    intro a b h c hc
    simp only [tiles] at h
    obtain ⟨hd, hn, ht⟩ := h
    have hb := tiles_le ht
    rcases List.mem_cons.mp hc with rfl | hc
    · omega
    · have := ih ht c hc
      omega

theorem tiles_cover {l : List (Nat × Nat)} : ∀ {a b : Nat}, tiles l a b →
    ∀ x, (a ≤ x ∧ x < b) ↔ ∃ c, c ∈ l ∧ c.1 ≤ x ∧ x < c.1 + c.2 := by
  induction l with
  | nil =>
    intro a b h x
    simp only [tiles] at h
    subst h
    simp only [List.not_mem_nil, false_and, exists_false, iff_false]
    omega
  | cons d l ih =>
    intro a b h x
    simp only [tiles] at h
    obtain ⟨hd, hn, ht⟩ := h
    have hb := tiles_le ht
    constructor
    · rintro ⟨hax, hxb⟩
      by_cases hx : x < a + d.2
      · exact ⟨d, List.mem_cons_self d l, by omega, by omega⟩
      · obtain ⟨c, hc, hcx⟩ := (ih ht x).mp ⟨by omega, hxb⟩
        exact ⟨c, List.mem_cons_of_mem d hc, hcx⟩
    · rintro ⟨c, hc, hcx1, hcx2⟩
      rcases List.mem_cons.mp hc with rfl | hc
      · omega
      · have := tiles_mem_bounds ht c hc
        omega

theorem tiles_pairwise {l : List (Nat × Nat)} : ∀ {a b : Nat}, tiles l a b →
    l.Pairwise (fun c d => c.1 + c.2 ≤ d.1) := by
  induction l with
  | nil => intro a b _; exact List.Pairwise.nil
  | cons d l ih =>
    intro a b h
    simp only [tiles] at h
    obtain ⟨hd, hn, ht⟩ := h
    refine List.Pairwise.cons ?_ (ih ht)
    intro c hc
    have := tiles_mem_bounds ht c hc
    omega

theorem advancing_append (cs : List (Nat × Nat)) (c : Nat × Nat) :
    advancing (cs ++ [c]) = advancing cs ++ (if 0 < c.2 then [c] else []) := by
  by_cases h : 0 < c.2
  · simp [advancing, List.filter_append, h]
  · simp [advancing, List.filter_append, h]

theorem classify_bounds {env : LoopEnv} (hwf : EnvWF env) (i : Nat) {off : Nat}
    (hoff : off < env.len) :
    (classifyChunk env i off).2.2 ≤ env.len - off ∧
    ((classifyChunk env i off).1 = true → 1 ≤ (classifyChunk env i off).2.2) ∧
    (0 ≤ (classifyChunk env i off).2.1 → (classifyChunk env i off).1 = false →
      1 ≤ (classifyChunk env i off).2.2) ∧
    ((classifyChunk env i off).2.1 < 0 → (classifyChunk env i off).2.2 = 0 ∧
      (classifyChunk env i off).1 = false) := by
  obtain ⟨h1, h2⟩ := hwf
  have hA := h1 i off hoff
  by_cases e1 : (env.isAllocated i off STREAM_CHUNK).1 = 1
  · have hA1 := hA.1 (by omega)
    have hcopy : (classifyChunk env i off).1 = false := by
      simp [classifyChunk, e1]
    have hret : (classifyChunk env i off).2.1 = 1 := by
      simp [classifyChunk, e1]
    have hn : (classifyChunk env i off).2.2 = (env.isAllocated i off STREAM_CHUNK).2 := by
      simp [classifyChunk, e1]
    rw [hcopy, hret, hn]
    refine ⟨hA1.2.2, by simp, fun _ _ => hA1.1, fun hlt => by omega⟩
  · by_cases e2 : 0 ≤ (env.isAllocated i off STREAM_CHUNK).1
    · have hA1 := hA.1 e2
      have hB := h2 i off (env.isAllocated i off STREAM_CHUNK).2 hoff hA1.1 hA1.2.2
      have hcopy : (classifyChunk env i off).1 =
          decide (0 < (env.isAllocatedAbove i off (env.isAllocated i off STREAM_CHUNK).2).1) := by
        simp [classifyChunk, e1, e2]
      have hret : (classifyChunk env i off).2.1 =
          (env.isAllocatedAbove i off (env.isAllocated i off STREAM_CHUNK).2).1 := by
        simp [classifyChunk, e1, e2]
      have hn : (classifyChunk env i off).2.2 =
          (if (env.isAllocatedAbove i off (env.isAllocated i off STREAM_CHUNK).2).1 = 0 ∧
              (env.isAllocatedAbove i off (env.isAllocated i off STREAM_CHUNK).2).2 = 0 then
            env.len - off
          else (env.isAllocatedAbove i off (env.isAllocated i off STREAM_CHUNK).2).2) := by
        simp [classifyChunk, e1, e2]
      rw [hcopy, hret, hn]
      by_cases e3 : (env.isAllocatedAbove i off (env.isAllocated i off STREAM_CHUNK).2).1 = 0 ∧
          (env.isAllocatedAbove i off (env.isAllocated i off STREAM_CHUNK).2).2 = 0
      · rw [if_pos e3]
        refine ⟨le_refl _, ?_, fun _ _ => by omega, fun hlt => by omega⟩
        intro hcp
        rw [decide_eq_true_eq] at hcp
        omega
      · rw [if_neg e3]
        refine ⟨?_, ?_, ?_, ?_⟩
        · rcases le_or_lt 0 (env.isAllocatedAbove i off
              (env.isAllocated i off STREAM_CHUNK).2).1 with h | h
          · exact le_trans (hB.1 h) hA1.2.2
          · rw [hB.2.2 h]
            omega
        · intro hcp
          rw [decide_eq_true_eq] at hcp
          exact hB.2.1 hcp
        · intro hge hcp
          rw [decide_eq_false_iff_not] at hcp
          have hz : (env.isAllocatedAbove i off (env.isAllocated i off STREAM_CHUNK).2).1 = 0 := by
            omega
          have hnz : (env.isAllocatedAbove i off (env.isAllocated i off STREAM_CHUNK).2).2 ≠ 0 := by
            intro hzz
            exact e3 ⟨hz, hzz⟩
          omega
        · intro hlt
          refine ⟨hB.2.2 hlt, ?_⟩
          rw [decide_eq_false_iff_not]
          omega
    · have hlt : (env.isAllocated i off STREAM_CHUNK).1 < 0 := by omega
      have hz := hA.2 hlt
      have hcopy : (classifyChunk env i off).1 = false := by
        simp [classifyChunk, e1, e2]
      have hret : (classifyChunk env i off).2.1 = (env.isAllocated i off STREAM_CHUNK).1 := by
        simp [classifyChunk, e1, e2]
      have hn : (classifyChunk env i off).2.2 = (env.isAllocated i off STREAM_CHUNK).2 := by
        simp [classifyChunk, e1, e2]
      rw [hcopy, hret, hn]
      exact ⟨by omega, by simp, fun hge _ => absurd hge e2, fun _ => ⟨hz, rfl⟩⟩

theorem LoopInv_bump {env : LoopEnv} {st : LoopState} (b : Bool) :
    LoopInv env (if b then { st with copyCount := st.copyCount + 1 } else st) ↔
      LoopInv env st := by
  cases b <;> simp [LoopInv]

theorem LoopInv_recordError {env : LoopEnv} {st : LoopState} {ret : Int} :
    LoopInv env (recordError st ret) ↔ LoopInv env st := by
  simp [LoopInv, recordError]

theorem LoopInv_advance {env : LoopEnv} {st : LoopState} (copy : Bool) {n : Nat}
    (hinv : LoopInv env st) (hn : st.offset + n ≤ env.len) :
    LoopInv env (advanceState st copy n) := by
  obtain ⟨hle, hpr, htl⟩ := hinv
  refine ⟨?_, ?_, ?_⟩
  · simp only [advanceState]
    omega
  · simp only [advanceState]
    omega
  · show tiles (advancing (advanceState st copy n).chunks) 0 (advanceState st copy n).offset
    simp only [advanceState]
    rw [advancing_append]
    by_cases h : 0 < n
    · rw [if_pos h]
      exact tiles_snoc htl h
    · have hz : n = 0 := by omega
      subst hz
      rw [if_neg (by omega : ¬ (0 : Nat) < 0)]
      simpa using htl

theorem handleResult_LoopInv {env : LoopEnv} {st : LoopState} {tr : List StreamEvent}
    {copy : Bool} {ret : Int} {n : Nat}
    (hinv : LoopInv env st) (hn : st.offset + n ≤ env.len) :
    LoopInv env (handleResult env st tr copy ret n).state := by
  unfold handleResult
  by_cases hr : ret < 0
  · rw [if_pos hr]
    cases hact : env.errorAction (-ret) with
    | stop => simpa [StepResult.state] using hinv
    | ignore =>
      simp only [StepResult.state]
      exact LoopInv_advance copy (LoopInv_recordError.mpr hinv)
        (by simpa [recordError] using hn)
    | report =>
      simp only [StepResult.state]
      exact LoopInv_recordError.mpr hinv
  · rw [if_neg hr]
    simp only [StepResult.state]
    exact LoopInv_advance copy hinv hn

theorem iter_LoopInv {env : LoopEnv} (hwf : EnvWF env) (i : Nat) {st : LoopState}
    (hoff : st.offset < env.len) (hinv : LoopInv env st) :
    LoopInv env (stream_iter env i st).state := by
  by_cases hc : env.cancelled i
  · simpa [stream_iter, hc, StepResult.state] using hinv
  · have hb := (classify_bounds hwf i hoff).1
    simp only [stream_iter, hc, if_false]
    apply handleResult_LoopInv
    · exact (LoopInv_bump _).mpr hinv
    · by_cases hcp : (classifyChunk env i st.offset).1 = true <;> simp [hcp] <;> omega

theorem stream_loop_preserves (env : LoopEnv) {P : LoopState → Prop}
    (hstep : ∀ i st, st.offset < env.len → P st → P (stream_iter env i st).state) :
    ∀ fuel i st, P st → P (stream_loop env fuel i st).st := by
  intro fuel
  induction fuel with
  | zero => intro i st h; simpa [stream_loop] using h
  | succ fuel ih =>
    intro i st h
    by_cases ho : st.offset < env.len
    · have h' := hstep i st ho h
      simp only [stream_loop, if_pos ho]
      cases hs : stream_iter env i st with
      | next st' tr =>
        rw [hs] at h'
        exact ih (i + 1) st' h'
      | brkCancel st' tr =>
        rw [hs] at h'
        exact h'
      | brkReport st' tr =>
        rw [hs] at h'
        exact h'
    · simpa [stream_loop, if_neg ho] using h

theorem stream_loop_completed_ge {env : LoopEnv} :
    ∀ fuel i st, (stream_loop env fuel i st).outcome = RunOutcome.completed →
      env.len ≤ (stream_loop env fuel i st).st.offset := by
  intro fuel
  induction fuel with
  | zero => intro i st h; simp [stream_loop] at h
  | succ fuel ih =>
    intro i st h
    by_cases ho : st.offset < env.len
    · simp only [stream_loop, if_pos ho] at h ⊢
      cases hs : stream_iter env i st with
      | next st' tr =>
        rw [hs] at h
        exact ih (i + 1) st' h
      | brkCancel st' tr =>
        rw [hs] at h
        simp at h
      | brkReport st' tr =>
        rw [hs] at h
        simp at h
    · simp only [stream_loop, if_neg ho]
      omega

theorem stream_loop_no_report {env : LoopEnv}
    (hnr : ∀ i st, (stream_iter env i st).isReport = false) :
    ∀ fuel i st, (stream_loop env fuel i st).outcome ≠ RunOutcome.reported := by
  intro fuel
  induction fuel with
  | zero => intro i st h; simp [stream_loop] at h
  | succ fuel ih =>
    intro i st h
    by_cases ho : st.offset < env.len
    · simp only [stream_loop, if_pos ho] at h
      cases hs : stream_iter env i st with
      | next st' tr =>
        rw [hs] at h
        exact ih (i + 1) st' h
      | brkCancel st' tr =>
        rw [hs] at h
        simp at h
      | brkReport st' tr =>
        have hx := hnr i st
        rw [hs] at hx
        simp [StepResult.isReport] at hx
    · simp [stream_loop, if_neg ho] at h

theorem ErrInv_recordError {st : LoopState} {ret : Int} (h : ErrInv st) (hr : ret < 0) :
    ErrInv (recordError st ret) := by
  obtain ⟨he, hall⟩ := h
  constructor
  · simp only [recordError]
    by_cases h0 : st.error = 0
    · rw [if_pos h0]
      cases hes : st.errors with
      | nil => simp [hes]
      | cons e es =>
        exfalso
        have hneg : e < 0 := hall e (by simp [hes])
        rw [hes] at he
        simp at he
        omega
    · rw [if_neg h0]
      cases hes : st.errors with
      | nil =>
        rw [hes] at he
        simp at he
        exact absurd he h0
      | cons e es =>
        rw [hes] at he
        simp only [List.cons_append, List.head?_cons, Option.getD_some] at he ⊢
        exact he
  · intro e he'
    simp only [recordError, List.mem_append, List.mem_singleton] at he'
    rcases he' with h1 | h1
    · exact hall e h1
    · subst h1
      exact hr

theorem handleResult_ErrInv {env : LoopEnv} {st : LoopState} {tr : List StreamEvent}
    {copy : Bool} {ret : Int} {n : Nat} (h : ErrInv st) :
    ErrInv (handleResult env st tr copy ret n).state := by
  unfold handleResult
  by_cases hr : ret < 0
  · rw [if_pos hr]
    cases hact : env.errorAction (-ret) with
    | stop => simpa [StepResult.state] using h
    | ignore =>
      simp only [StepResult.state]
      have h2 := ErrInv_recordError h hr
      simpa [ErrInv, advanceState] using h2
    | report =>
      simp only [StepResult.state]
      exact ErrInv_recordError h hr
  · rw [if_neg hr]
    simp only [StepResult.state]
    simpa [ErrInv, advanceState] using h

theorem iter_ErrInv {env : LoopEnv} (i : Nat) {st : LoopState} (h : ErrInv st) :
    ErrInv (stream_iter env i st).state := by
  by_cases hc : env.cancelled i
  · simpa [stream_iter, hc, StepResult.state] using h
  · simp only [stream_iter, hc, if_false]
    apply handleResult_ErrInv
    by_cases hcp : (classifyChunk env i st.offset).1 = true
    · rw [if_pos hcp]
      simpa [ErrInv] using h
    · rw [if_neg hcp]
      exact h

/-- Events of a non-cancelled iteration up to (and including) the
optional copy, before the error handling. -/
def iterTrace0 (env : LoopEnv) (i : Nat) (st : LoopState) : List StreamEvent :=
  [StreamEvent.ratelimitSleep, StreamEvent.cancelCheck false] ++
    (if env.adaptive then [StreamEvent.adaptivePause] else []) ++
    [StreamEvent.classify st.offset] ++
    (if (classifyChunk env i st.offset).1 then
      [StreamEvent.copyOp st.offset (classifyChunk env i st.offset).2.2] else [])

theorem stream_iter_eq (env : LoopEnv) (i : Nat) (st : LoopState)
    (hc : env.cancelled i = false) :
    stream_iter env i st = handleResult env
      (if (classifyChunk env i st.offset).1 then
        { st with copyCount := st.copyCount + 1 } else st)
      (iterTrace0 env i st) (classifyChunk env i st.offset).1 (iterRet env i st)
      (classifyChunk env i st.offset).2.2 := by
  simp [stream_iter, hc, iterRet, iterTrace0]

theorem handleResult_stop {env : LoopEnv} {st : LoopState} {tr : List StreamEvent}
    {copy : Bool} {ret : Int} {n : Nat} (hf : ret < 0)
    (ha : env.errorAction (-ret) = ErrAction.stop) :
    handleResult env st tr copy ret n = StepResult.next st tr := by
  simp [handleResult, hf, ha]

theorem handleResult_ignore {env : LoopEnv} {st : LoopState} {tr : List StreamEvent}
    {copy : Bool} {ret : Int} {n : Nat} (hf : ret < 0)
    (ha : env.errorAction (-ret) = ErrAction.ignore) :
    handleResult env st tr copy ret n =
      StepResult.next (advanceState (recordError st ret) copy n)
        (tr ++ progressEvents copy n) := by
  simp [handleResult, hf, ha]

theorem handleResult_report {env : LoopEnv} {st : LoopState} {tr : List StreamEvent}
    {copy : Bool} {ret : Int} {n : Nat} (hf : ret < 0)
    (ha : env.errorAction (-ret) = ErrAction.report) :
    handleResult env st tr copy ret n = StepResult.brkReport (recordError st ret) tr := by
  simp [handleResult, hf, ha]

theorem handleResult_ok {env : LoopEnv} {st : LoopState} {tr : List StreamEvent}
    {copy : Bool} {ret : Int} {n : Nat} (hf : ¬ ret < 0) :
    handleResult env st tr copy ret n =
      StepResult.next (advanceState st copy n) (tr ++ progressEvents copy n) := by
  simp [handleResult, hf]

theorem stream_loop_step_brkReport {env : LoopEnv} (fuel : Nat) {i : Nat} {st s' : LoopState}
    {tr : List StreamEvent} (ho : st.offset < env.len)
    (hs : stream_iter env i st = StepResult.brkReport s' tr) :
    stream_loop env (fuel + 1) i st =
      { outcome := RunOutcome.reported, st := s', trace := tr } := by
  simp [stream_loop, ho, hs]

theorem stream_loop_step_brkCancel {env : LoopEnv} (fuel : Nat) {i : Nat} {st s' : LoopState}
    {tr : List StreamEvent} (ho : st.offset < env.len)
    (hs : stream_iter env i st = StepResult.brkCancel s' tr) :
    stream_loop env (fuel + 1) i st =
      { outcome := RunOutcome.cancelledOut, st := s', trace := tr } := by
  simp [stream_loop, ho, hs]

theorem iter_error_frozen (env : LoopEnv) (i : Nat) (st : LoopState) (h : ¬ st.error = 0) :
    (stream_iter env i st).state.error = st.error := by
  by_cases hc : env.cancelled i
  · simp [stream_iter, hc, StepResult.state]
  · rw [stream_iter_eq env i st (by simpa using hc)]
    unfold handleResult
    by_cases hr : iterRet env i st < 0
    · rw [if_pos hr]
      cases env.errorAction (-(iterRet env i st)) with
      | stop =>
        by_cases hcp : (classifyChunk env i st.offset).1 = true <;>
          simp [hcp, StepResult.state]
      | ignore =>
        by_cases hcp : (classifyChunk env i st.offset).1 = true <;>
          simp [hcp, StepResult.state, advanceState, recordError, h]
      | report =>
        by_cases hcp : (classifyChunk env i st.offset).1 = true <;>
          simp [hcp, StepResult.state, recordError, h]
    · rw [if_neg hr]
      by_cases hcp : (classifyChunk env i st.offset).1 = true <;>
        simp [hcp, StepResult.state, advanceState]

theorem envNoAlloc_wf : EnvWF envNoAlloc := by
  refine ⟨?_, ?_⟩
  · intro i off hoff
    simp only [envNoAlloc] at hoff ⊢
    constructor
    · intro _
      refine ⟨?_, ?_, ?_⟩
      · simp only [STREAM_CHUNK]
        omega
      · simp only [STREAM_CHUNK]
        omega
      · omega
    · intro h
      omega
  · intro i off m hoff h1 h2
    simp only [envNoAlloc]
    refine ⟨fun _ => le_refl m, fun h => by omega, fun h => by omega⟩

theorem stream_calibrate_run {p : Rat} (samples : Nat → Rat) (hth : p < 1) :
    stream_calibrate true p samples =
      ((samples 0 * p + samples 1 * p + samples 2 * p) / 3,
       [CalibEvent.sleep5s, CalibEvent.sample 0, CalibEvent.sleep5s, CalibEvent.sample 1,
        CalibEvent.sleep5s, CalibEvent.sample 2]) := by
  have hr : List.range 3 = [0, 1, 2] := by decide
  simp [stream_calibrate, hth, hr]

theorem stream_calibrate_skip_ge1 {b : Bool} {p : Rat} (samples : Nat → Rat)
    (h1 : 1 ≤ p) : stream_calibrate b p samples = (p, []) := by
  unfold stream_calibrate
  rw [if_neg]
  rintro ⟨-, hlt2⟩
  exact absurd hlt2 (not_lt.mpr h1)

theorem stream_calibrate_skip_off {p : Rat} (samples : Nat → Rat) :
    stream_calibrate false p samples = (p, []) := by
  unfold stream_calibrate
  rw [if_neg]
  rintro ⟨h, -⟩
  simp at h

theorem handleResult_trace_ext (env : LoopEnv) (st : LoopState) (tr : List StreamEvent)
    (copy : Bool) (ret : Int) (n : Nat) :
    ∃ e, (handleResult env st tr copy ret n).trace = tr ++ e ∧
      ∀ x ∈ e, x = StreamEvent.progress n ∨ x = StreamEvent.ratelimitProcessed n := by
  unfold handleResult
  by_cases hr : ret < 0
  · rw [if_pos hr]
    cases env.errorAction (-ret) with
    | stop => exact ⟨[], by simp [StepResult.trace], by simp⟩
    | ignore =>
      refine ⟨progressEvents copy n, by simp [StepResult.trace], ?_⟩
      intro x hx
      cases copy <;> simp [progressEvents] at hx <;> tauto
    | report => exact ⟨[], by simp [StepResult.trace], by simp⟩
  · rw [if_neg hr]
    refine ⟨progressEvents copy n, by simp [StepResult.trace], ?_⟩
    intro x hx
    cases copy <;> simp [progressEvents] at hx <;> tauto

/-- C1: for every image length and the fixed 512 KiB chunk size, in a
completed run of the `stream_run` loop each iteration advances `offset`
by the `n` it determined (0 on a stop-action retry), and the advancing
chunks partition `[0, len)`: they tile the range contiguously starting
at 0 (`tiles`), every byte `x < len` lies in some advancing chunk and
only such bytes do, and distinct advancing chunks are disjoint (each
ends at or before the start of every later one). -/
theorem stream_chunks_partition (env : LoopEnv) (fuel : Nat)
    (hwf : EnvWF env)
    (hdone : (stream_loop env fuel 0 initState).outcome = RunOutcome.completed) :
    tiles (advancing (stream_loop env fuel 0 initState).st.chunks) 0 env.len ∧
    (∀ x, x < env.len ↔ ∃ c, c ∈ advancing (stream_loop env fuel 0 initState).st.chunks ∧
      c.1 ≤ x ∧ x < c.1 + c.2) ∧
    (advancing (stream_loop env fuel 0 initState).st.chunks).Pairwise
      (fun c d => c.1 + c.2 ≤ d.1) := by
  have hinv := stream_loop_preserves env (P := LoopInv env)
    (fun i st ho h => iter_LoopInv hwf i ho h) fuel 0 initState
    ⟨by simp [initState], by simp [initState], by simp [initState, advancing, tiles]⟩
  have hge := stream_loop_completed_ge fuel 0 initState hdone
  obtain ⟨hle, hpr, htl⟩ := hinv
  have hoff : (stream_loop env fuel 0 initState).st.offset = env.len := by omega
  rw [hoff] at htl
  refine ⟨htl, ?_, tiles_pairwise htl⟩
  intro x
  have hcov := tiles_cover htl x
  constructor
  · intro hx
    exact hcov.mp ⟨Nat.zero_le x, hx⟩
  · intro hx
    exact (hcov.mpr hx).2

/-- Witness for C1 at a concrete environment: a 2 MiB image with nothing
allocated above the base completes and its advancing chunks tile
`[0, 2 MiB)`. -/
theorem stream_chunks_partition_witness :
    EnvWF envNoAlloc ∧
    (stream_loop envNoAlloc 8 0 initState).outcome = RunOutcome.completed ∧
    tiles (advancing (stream_loop envNoAlloc 8 0 initState).st.chunks) 0 envNoAlloc.len := by
  refine ⟨envNoAlloc_wf, by decide, ?_⟩
  exact (stream_chunks_partition envNoAlloc 8 envNoAlloc_wf (by decide)).1

/-- C2 counterexample: the published progress (`job_progress_update`
accumulations, the job's `bytesCopied`) counts every classified chunk,
copied or not.  With nothing allocated above the base (2 MiB image) the
run performs zero copies yet publishes 2 MiB of progress, not 0; in the
spec's own 2 MiB scenario (only `[1 MiB, 1.5 MiB)` needs copying) the
run copies 512 KiB but publishes 2 MiB, not 512 KiB. -/
theorem stream_progress_counts_uncopied :
    (stream_loop envNoAlloc 8 0 initState).outcome = RunOutcome.completed ∧
    (stream_loop envNoAlloc 8 0 initState).st.copyCount = 0 ∧
    ¬ (stream_loop envNoAlloc 8 0 initState).st.progressTotal = 0 ∧
    (stream_loop envScenario 8 0 initState).outcome = RunOutcome.completed ∧
    (stream_loop envScenario 8 0 initState).st.copyCount = 1 ∧
    (stream_loop envScenario 8 0 initState).st.copiedBytes = 524288 ∧
    (stream_loop envScenario 8 0 initState).st.progressTotal = 2097152 ∧
    ¬ (stream_loop envScenario 8 0 initState).st.progressTotal = 524288 := by
  decide

/-- C2 (amended): in a completed run in which no byte range is allocated
above the base boundary, zero copy operations are performed and zero
bytes are reported to the rate limiter as copied, but the published
progress still ends at the full image length `len` (progress counts
classified bytes whether or not they were copied; only the
rate-limiter-processed bytes equal the bytes actually copied). -/
theorem stream_no_alloc_no_copies (env : LoopEnv) (fuel : Nat)
    (hwf : EnvWF env)
    (habove : ∀ i off m, (env.isAllocatedAbove i off m).1 = 0)
    (hdone : (stream_loop env fuel 0 initState).outcome = RunOutcome.completed) :
    (stream_loop env fuel 0 initState).st.copyCount = 0 ∧
    (stream_loop env fuel 0 initState).st.copiedBytes = 0 ∧
    (stream_loop env fuel 0 initState).st.progressTotal = env.len := by
  have hcp : ∀ i off, (classifyChunk env i off).1 = false := by
    intro i off
    unfold classifyChunk
    by_cases e1 : (env.isAllocated i off STREAM_CHUNK).1 = 1
    · simp [e1]
    · by_cases e2 : 0 ≤ (env.isAllocated i off STREAM_CHUNK).1
      · simp [e1, e2, habove]
      · simp [e1, e2]
  have hnc := stream_loop_preserves env
    (P := fun s => s.copyCount = 0 ∧ s.copiedBytes = 0)
    (fun i st ho hP => by
      by_cases hc : env.cancelled i
      · simpa [stream_iter, hc, StepResult.state] using hP
      · rw [stream_iter_eq env i st (by simpa using hc)]
        rw [hcp i st.offset]
        unfold handleResult
        by_cases hr : iterRet env i st < 0
        · rw [if_pos hr]
          cases env.errorAction (-(iterRet env i st)) with
          | stop => simpa [StepResult.state] using hP
          | ignore => simpa [StepResult.state, advanceState, recordError] using hP
          | report => simpa [StepResult.state, recordError] using hP
        · rw [if_neg hr]
          simpa [StepResult.state, advanceState] using hP)
    fuel 0 initState (by simp [initState])
  have hinv := stream_loop_preserves env (P := LoopInv env)
    (fun i st ho h => iter_LoopInv hwf i ho h) fuel 0 initState
    ⟨by simp [initState], by simp [initState], by simp [initState, advancing, tiles]⟩
  have hge := stream_loop_completed_ge fuel 0 initState hdone
  obtain ⟨hle, hpr, _⟩ := hinv
  exact ⟨hnc.1, hnc.2, by omega⟩

/-- Witness for the amended C2 at the concrete 2 MiB no-allocation
environment. -/
theorem stream_no_alloc_no_copies_witness :
    EnvWF envNoAlloc ∧
    (∀ i off m, (envNoAlloc.isAllocatedAbove i off m).1 = 0) ∧
    (stream_loop envNoAlloc 8 0 initState).outcome = RunOutcome.completed ∧
    (stream_loop envNoAlloc 8 0 initState).st.copyCount = 0 ∧
    (stream_loop envNoAlloc 8 0 initState).st.copiedBytes = 0 ∧
    (stream_loop envNoAlloc 8 0 initState).st.progressTotal = envNoAlloc.len := by
  have h := stream_no_alloc_no_copies envNoAlloc 8 envNoAlloc_wf
    (fun _ _ _ => rfl) (by decide)
  exact ⟨envNoAlloc_wf, fun _ _ _ => rfl, by decide, h.1, h.2.1, h.2.2⟩

/-- C3: with an error-action policy that always answers `report` (the
`onError = report` mode) , a failing iteration (negative final `ret`
from the allocation query or the copy) breaks the loop immediately: the
step is a report break, the offset stays at the failing chunk's starting
offset, no progress is published for that chunk, and the loop from this
point returns that error as `stream_run`'s `error` accumulator (given
no earlier recorded error). -/
theorem stream_report_halts (env : LoopEnv) (fuel i : Nat) (st : LoopState)
    (hrep : ∀ e, env.errorAction e = ErrAction.report)
    (hc : env.cancelled i = false)
    (hoff : st.offset < env.len)
    (hfail : iterRet env i st < 0)
    (herr0 : st.error = 0) :
    (stream_iter env i st).isReport = true ∧
    (stream_iter env i st).state.offset = st.offset ∧
    (stream_iter env i st).state.progressTotal = st.progressTotal ∧
    (stream_iter env i st).state.error = iterRet env i st ∧
    (stream_loop env (fuel + 1) i st).outcome = RunOutcome.reported ∧
    (stream_loop env (fuel + 1) i st).st.offset = st.offset ∧
    (stream_loop env (fuel + 1) i st).st.progressTotal = st.progressTotal ∧
    (stream_loop env (fuel + 1) i st).st.error = iterRet env i st := by
  have hs : stream_iter env i st = StepResult.brkReport
      (recordError (if (classifyChunk env i st.offset).1 then
        { st with copyCount := st.copyCount + 1 } else st) (iterRet env i st))
      (iterTrace0 env i st) := by
    rw [stream_iter_eq env i st hc]
    exact handleResult_report hfail (hrep _)
  have hloop := stream_loop_step_brkReport fuel hoff hs
  rw [hs, hloop]
  by_cases hcp : (classifyChunk env i st.offset).1 = true <;>
    simp [hcp, StepResult.isReport, StepResult.state, recordError, herr0]

/-- Witness for C3: in the concrete report-mode environment whose copy
at offset 0 fails with -5, the very first iteration breaks the loop with
outcome `reported` and error -5, and publishes no progress. -/
theorem stream_report_halts_witness :
    (stream_iter envReportFail 0 initState).isReport = true ∧
    (stream_loop envReportFail 1 0 initState).outcome = RunOutcome.reported ∧
    (stream_loop envReportFail 1 0 initState).st.offset = initState.offset ∧
    (stream_loop envReportFail 1 0 initState).st.error = iterRet envReportFail 0 initState := by
  have h := stream_report_halts envReportFail 0 0 initState (fun e => rfl) rfl
    (by decide) (by decide) rfl
  exact ⟨h.1, h.2.2.2.2.1, h.2.2.2.2.2.1, h.2.2.2.2.2.2.2⟩

/-- C4: with an error-action policy that always answers `ignore` (the
`onError = ignore` mode): a failing non-cancelled iteration still
continues the loop, records its return code at the
`if (error == 0) error = ret` line (keeping an earlier first error), the
loop never ends with a report break, an already-recorded non-zero error
survives to the end of any run, and a run from the initial state returns
the first recorded error (0 when none was recorded). -/
theorem stream_ignore_keeps_first_error (env : LoopEnv) (fuel : Nat)
    (hign : ∀ e, env.errorAction e = ErrAction.ignore) :
    (∀ i st, env.cancelled i = false → iterRet env i st < 0 →
      (stream_iter env i st).isNext = true ∧
      (stream_iter env i st).state.error =
        (if st.error = 0 then iterRet env i st else st.error) ∧
      (stream_iter env i st).state.errors = st.errors ++ [iterRet env i st]) ∧
    (∀ i st, (stream_loop env fuel i st).outcome ≠ RunOutcome.reported) ∧
    (∀ i st, ¬ st.error = 0 → (stream_loop env fuel i st).st.error = st.error) ∧
    ((stream_loop env fuel 0 initState).st.error =
      (stream_loop env fuel 0 initState).st.errors.head?.getD 0) := by
  refine ⟨?_, ?_, ?_, ?_⟩
  · intro i st hc hfail
    have hs : stream_iter env i st = StepResult.next
        (advanceState (recordError (if (classifyChunk env i st.offset).1 then
          { st with copyCount := st.copyCount + 1 } else st) (iterRet env i st))
          (classifyChunk env i st.offset).1 (classifyChunk env i st.offset).2.2)
        (iterTrace0 env i st ++ progressEvents (classifyChunk env i st.offset).1
          (classifyChunk env i st.offset).2.2) := by
      rw [stream_iter_eq env i st hc]
      exact handleResult_ignore hfail (hign _)
    rw [hs]
    by_cases hcp : (classifyChunk env i st.offset).1 = true <;>
      simp [hcp, StepResult.isNext, StepResult.state, advanceState, recordError]
  · intro i st
    apply stream_loop_no_report
    intro j s
    by_cases hc : env.cancelled j
    · simp [stream_iter, hc, StepResult.isReport]
    · rw [stream_iter_eq env j s (by simpa using hc)]
      by_cases hr : iterRet env j s < 0
      · rw [handleResult_ignore hr (hign _)]
        simp [StepResult.isReport]
      · rw [handleResult_ok hr]
        simp [StepResult.isReport]
  · intro i st hne
    exact stream_loop_preserves env (P := fun s => s.error = st.error)
      (fun j s ho hP => by
        have hfr := iter_error_frozen env j s (by omega)
        omega)
      fuel i st rfl
  · have h := stream_loop_preserves env (P := ErrInv)
      (fun j s ho hE => iter_ErrInv j hE) fuel 0 initState
      ⟨by simp [initState], by simp [initState]⟩
    exact h.1

/-- Witness for C4: in the concrete ignore-mode environment whose copy
at offset 0 fails with -5, the first iteration continues, the run never
reports, and the completed run returns its first recorded error. -/
theorem stream_ignore_keeps_first_error_witness :
    (stream_iter envIgnoreFail 0 initState).isNext = true ∧
    (stream_loop envIgnoreFail 4 0 initState).outcome ≠ RunOutcome.reported ∧
    (stream_loop envIgnoreFail 4 0 initState).st.error =
      (stream_loop envIgnoreFail 4 0 initState).st.errors.head?.getD 0 := by
  have h := stream_ignore_keeps_first_error envIgnoreFail 4 (fun e => rfl)
  exact ⟨(h.1 0 initState rfl (by decide)).1, h.2.1 0 initState, h.2.2.2⟩

/-- C9: with an error-action policy that always answers `stop` (the
`onError = stop` mode), a failing non-cancelled iteration continues the
loop with `n = 0`: same offset (the chunk is retried), no progress
published, and the failing code is never stored in the error
accumulator; consequently any run from the initial state ends with
`error = 0` and an empty record of stored errors, so a run that
eventually completes returns 0. -/
theorem stream_stop_retries (env : LoopEnv) (fuel : Nat)
    (hstop : ∀ e, env.errorAction e = ErrAction.stop) :
    (∀ i st, env.cancelled i = false → iterRet env i st < 0 →
      (stream_iter env i st).isNext = true ∧
      (stream_iter env i st).state.offset = st.offset ∧
      (stream_iter env i st).state.error = st.error ∧
      (stream_iter env i st).state.errors = st.errors ∧
      (stream_iter env i st).state.progressTotal = st.progressTotal) ∧
    ((stream_loop env fuel 0 initState).st.error = 0 ∧
      (stream_loop env fuel 0 initState).st.errors = []) := by
  constructor
  · intro i st hc hfail
    have hs : stream_iter env i st = StepResult.next
        (if (classifyChunk env i st.offset).1 then
          { st with copyCount := st.copyCount + 1 } else st)
        (iterTrace0 env i st) := by
      rw [stream_iter_eq env i st hc]
      exact handleResult_stop hfail (hstop _)
    rw [hs]
    by_cases hcp : (classifyChunk env i st.offset).1 = true <;>
      simp [hcp, StepResult.isNext, StepResult.state]
  · exact stream_loop_preserves env
      (P := fun s => s.error = 0 ∧ s.errors = [])
      (fun i st ho hP => by
        by_cases hc : env.cancelled i
        · simpa [stream_iter, hc, StepResult.state] using hP
        · rw [stream_iter_eq env i st (by simpa using hc)]
          by_cases hr : iterRet env i st < 0
          · rw [handleResult_stop hr (hstop _)]
            by_cases hcp : (classifyChunk env i st.offset).1 = true <;>
              simp [hcp, StepResult.state] <;> exact hP
          · rw [handleResult_ok hr]
            by_cases hcp : (classifyChunk env i st.offset).1 = true <;>
              simp [hcp, StepResult.state, advanceState] <;> exact hP)
      fuel 0 initState (by simp [initState])

/-- Witness for C9: in the concrete stop-mode environment whose copy
fails only at iteration 0, the failing first iteration retries the same
offset, and the run (which then completes) returns 0 with no stored
error. -/
theorem stream_stop_retries_witness :
    (stream_iter envStopFail 0 initState).isNext = true ∧
    (stream_iter envStopFail 0 initState).state.offset = initState.offset ∧
    (stream_loop envStopFail 8 0 initState).outcome = RunOutcome.completed ∧
    (stream_loop envStopFail 8 0 initState).st.error = 0 ∧
    (stream_loop envStopFail 8 0 initState).st.errors = [] := by
  have h := stream_stop_retries envStopFail 8 (fun e => rfl)
  have h1 := h.1 0 initState rfl (by decide)
  exact ⟨h1.1, h1.2.1, by decide, h.2.1, h.2.2⟩

/-- C5 (amended): the calibration block of `stream_run` runs exactly
when the IOPS tracker is enabled (adaptive mode on and tracker
enablement succeeded) and the supplied threshold is `< 1` — including
negative thresholds, not only those in [0, 1).  When it runs it takes
exactly 3 samples, each immediately preceded by one fixed 5-second
cancellable sleep, and sets the threshold to the arithmetic mean of the
three values `sample_i × percentage`.  A supplied threshold ≥ 1 skips
calibration and is used directly, as is any threshold when adaptive
mode is off. -/
theorem stream_calibration_rule (env : RunEnv) (fuel : Nat)
    (hns : env.nothingToStream = false) (hlen : 0 ≤ env.getLength) :
    ((env.adaptive_stream && env.trackerEnableOk) = true →
      env.adaptive_threshold < 1 →
      (stream_run env fuel).threshold =
        (env.samples 0 * env.adaptive_threshold + env.samples 1 * env.adaptive_threshold +
          env.samples 2 * env.adaptive_threshold) / 3 ∧
      (stream_run env fuel).calibEvents =
        [CalibEvent.sleep5s, CalibEvent.sample 0, CalibEvent.sleep5s, CalibEvent.sample 1,
         CalibEvent.sleep5s, CalibEvent.sample 2]) ∧
    (1 ≤ env.adaptive_threshold →
      (stream_run env fuel).threshold = env.adaptive_threshold ∧
      (stream_run env fuel).calibEvents = []) ∧
    (env.adaptive_stream = false →
      (stream_run env fuel).threshold = env.adaptive_threshold ∧
      (stream_run env fuel).calibEvents = []) := by
  have hlt : ¬ env.getLength < 0 := not_lt.mpr hlen
  have hthr : (stream_run env fuel).threshold =
      (stream_calibrate (env.adaptive_stream && env.trackerEnableOk)
        env.adaptive_threshold env.samples).1 := by
    simp [stream_run, hns, hlt]
  have hev : (stream_run env fuel).calibEvents =
      (stream_calibrate (env.adaptive_stream && env.trackerEnableOk)
        env.adaptive_threshold env.samples).2 := by
    simp [stream_run, hns, hlt]
  refine ⟨fun he hth => ?_, fun h1 => ?_, fun hna => ?_⟩
  · rw [hthr, hev, he, stream_calibrate_run env.samples hth]
    exact ⟨rfl, rfl⟩
  · rw [hthr, hev, stream_calibrate_skip_ge1 env.samples h1]
    exact ⟨rfl, rfl⟩
  · rw [hthr, hev]
    rw [show (env.adaptive_stream && env.trackerEnableOk) = false by rw [hna]; simp]
    rw [stream_calibrate_skip_off env.samples]
    exact ⟨rfl, rfl⟩

/-- C5 counterexample: the code's calibration guard is
`adaptive_threshold < 1`, not membership in [0, 1).  With the tracker
enabled and a supplied threshold of -1 (outside [0, 1)), calibration
still runs: it emits its sleep/sample events and overwrites the
threshold with the mean of the weighted samples (here -6) instead of
skipping. -/
theorem stream_calibrate_runs_below_zero :
    ¬ ((0 : Rat) ≤ -1) ∧
    (stream_calibrate true (-1) (fun _ => 6)).2 ≠ [] ∧
    (stream_calibrate true (-1) (fun _ => 6)).1 = -6 := by
  have h := stream_calibrate_run (p := -1) (fun _ => 6) (by norm_num)
  rw [h]
  refine ⟨by norm_num, by simp, by norm_num⟩

/-- Concrete `stream_run` environment for the calibration witness:
adaptive mode on, tracker enabled, threshold 1/2, all samples 6. -/
def runEnvCalib : RunEnv :=
  { nothingToStream := false, getLength := 2097152,
    adaptive_stream := true, trackerEnableOk := true,
    adaptive_threshold := 1/2,
    samples := fun _ => 6,
    cancelled := fun _ => false,
    isAllocated := fun _ off bytes => (0, min bytes (2097152 - off)),
    isAllocatedAbove := fun _ _ m => (0, m),
    populate := fun _ _ _ => 0,
    errorAction := fun _ => ErrAction.report }

/-- Witness for C5 at the concrete environment: threshold 1/2 < 1
calibrates to the mean of the three weighted samples with the 3
sleep/sample pairs. -/
theorem stream_calibration_rule_witness :
    (stream_run runEnvCalib 8).threshold =
      ((6 : Rat) * (1 / 2) + 6 * (1 / 2) + 6 * (1 / 2)) / 3 ∧
    (stream_run runEnvCalib 8).calibEvents =
      [CalibEvent.sleep5s, CalibEvent.sample 0, CalibEvent.sleep5s, CalibEvent.sample 1,
       CalibEvent.sleep5s, CalibEvent.sample 2] := by
  have h := stream_calibration_rule runEnvCalib 8 rfl (by decide)
  exact h.1 rfl (by norm_num [runEnvCalib])

/-- C6: in every loop iteration the rate-limiter sleep is first and
unconditional; the cancellation check is second, and on cancellation
the loop stops with the state unchanged (already-copied bytes kept, no
chunk classified or copied); otherwise the adaptive pause follows, and
only when adaptive mode is enabled; only after all of that is the chunk
classified and possibly copied — the remaining trace holds only
copy/progress events. -/
theorem stream_iter_step_order (env : LoopEnv) (fuel i : Nat) (st : LoopState) :
    (env.cancelled i = true →
      stream_iter env i st = StepResult.brkCancel st
        [StreamEvent.ratelimitSleep, StreamEvent.cancelCheck true] ∧
      (st.offset < env.len →
        stream_loop env (fuel + 1) i st =
          { outcome := RunOutcome.cancelledOut, st := st,
            trace := [StreamEvent.ratelimitSleep, StreamEvent.cancelCheck true] })) ∧
    (env.cancelled i = false →
      ∃ tl, (stream_iter env i st).trace =
        [StreamEvent.ratelimitSleep, StreamEvent.cancelCheck false] ++
          (if env.adaptive then [StreamEvent.adaptivePause] else []) ++
          [StreamEvent.classify st.offset] ++ tl ∧
        ∀ x ∈ tl, x = StreamEvent.copyOp st.offset (classifyChunk env i st.offset).2.2 ∨
          x = StreamEvent.progress (classifyChunk env i st.offset).2.2 ∨
          x = StreamEvent.ratelimitProcessed (classifyChunk env i st.offset).2.2) := by
  constructor
  · intro hc
    have hs : stream_iter env i st = StepResult.brkCancel st
        [StreamEvent.ratelimitSleep, StreamEvent.cancelCheck true] := by
      simp [stream_iter, hc]
    exact ⟨hs, fun ho => stream_loop_step_brkCancel fuel ho hs⟩
  · intro hc
    rw [stream_iter_eq env i st hc]
    obtain ⟨e, he, hchar⟩ := handleResult_trace_ext env
      (if (classifyChunk env i st.offset).1 then
        { st with copyCount := st.copyCount + 1 } else st)
      (iterTrace0 env i st) (classifyChunk env i st.offset).1 (iterRet env i st)
      (classifyChunk env i st.offset).2.2
    refine ⟨(if (classifyChunk env i st.offset).1 then
      [StreamEvent.copyOp st.offset (classifyChunk env i st.offset).2.2] else []) ++ e,
      ?_, ?_⟩
    · rw [he]
      simp [iterTrace0, List.append_assoc]
    · intro x hx
      rcases List.mem_append.mp hx with h1 | h1
      · left
        by_cases hcp : (classifyChunk env i st.offset).1 = true
        · rw [if_pos hcp] at h1
          simpa using h1
        · rw [if_neg hcp] at h1
          simp at h1
      · rcases hchar x h1 with h | h
        · right
          left
          exact h
        · right
          right
          exact h

/-- Witness for C6: at a concrete environment, cancellation at
iteration 2 stops the loop with the state kept, and a non-cancelled
iteration's trace has the sleep/check/pause/classify prefix. -/
theorem stream_iter_step_order_witness :
    (stream_iter envCancelAt2 2 initState = StepResult.brkCancel initState
      [StreamEvent.ratelimitSleep, StreamEvent.cancelCheck true]) ∧
    (∃ tl, (stream_iter envCancelAt2 0 initState).trace =
      [StreamEvent.ratelimitSleep, StreamEvent.cancelCheck false] ++
        (if envCancelAt2.adaptive then [StreamEvent.adaptivePause] else []) ++
        [StreamEvent.classify initState.offset] ++ tl ∧
      ∀ x ∈ tl,
        x = StreamEvent.copyOp initState.offset
          (classifyChunk envCancelAt2 0 initState.offset).2.2 ∨
        x = StreamEvent.progress (classifyChunk envCancelAt2 0 initState.offset).2.2 ∨
        x = StreamEvent.ratelimitProcessed
          (classifyChunk envCancelAt2 0 initState.offset).2.2) := by
  exact ⟨((stream_iter_step_order envCancelAt2 0 2 initState).1 (by decide)).1,
    (stream_iter_step_order envCancelAt2 0 0 initState).2 (by decide)⟩

/-- C7: `stream_prepare` always drops the interposing COR filter; when
the top image still has a direct backing (COW) reference it attempts
the rewrite, with `base_id` the caller-supplied backing-file string
when given (else the discovered base node's filename) and `base_fmt`
masked to "raw" when `backing_mask_protocol` is set and the discovered
driver is a protocol driver (else the driver's format name); a failed
`bdrv_set_backing_hd_drained` gives a negative return (-EPERM), else
the `bdrv_change_backing_file` result is returned — the function takes
no input from the copy loop, so a rewrite failure fails the prepare
step regardless of how the loop ended; with no direct backing
reference it returns 0 and rewrites nothing. -/
theorem stream_prepare_rewrites_backing (bfs : Option String) (mask : Bool) (env : PrepEnv) :
    (stream_prepare bfs mask env).filterDropped = true ∧
    (env.hasCow = false → (stream_prepare bfs mask env).rewroteBacking = false ∧
      (stream_prepare bfs mask env).ret = 0) ∧
    (env.hasCow = true →
      (stream_prepare bfs mask env).rewroteBacking = true ∧
      (env.setBackingErr = true → (stream_prepare bfs mask env).ret < 0) ∧
      (env.setBackingErr = false →
        (stream_prepare bfs mask env).ret = env.changeBackingRet) ∧
      (∀ ub, env.unfiltered_base = some ub →
        (stream_prepare bfs mask env).base_id = some (bfs.getD ub.filename) ∧
        ∀ d, ub.drv = some d →
          (stream_prepare bfs mask env).base_fmt =
            (if mask ∧ d.protocol_name.isSome then some "raw" else some d.format_name))) := by
  by_cases hcow : env.hasCow = true
  · refine ⟨by simp [stream_prepare, hcow], ?_, ?_⟩
    · intro hf
      rw [hcow] at hf
      simp at hf
    · intro _
      refine ⟨by simp [stream_prepare, hcow], ?_, ?_, ?_⟩
      · intro hserr
        simp [stream_prepare, hcow, hserr]
      · intro hserr
        simp [stream_prepare, hcow, hserr]
      · intro ub hub
        constructor
        · simp [stream_prepare, hcow, hub]
        · intro d hd
          simp [stream_prepare, hcow, hub, hd]
  · have hcf : env.hasCow = false := by simpa using hcow
    exact ⟨by simp [stream_prepare, hcf],
      fun _ => ⟨by simp [stream_prepare, hcf], by simp [stream_prepare, hcf]⟩,
      fun ht => absurd ht hcow⟩

/-- Concrete prepare environment for the C7 witness: a COW child is
present, the discovered base node is backed by a protocol driver, and
the set-backing call fails. -/
def prepEnvW : PrepEnv :=
  { hasCow := true,
    unfiltered_base := some { filename := "base.img",
                              drv := some { format_name := "file",
                                            protocol_name := some "file" } },
    setBackingErr := true,
    changeBackingRet := 0 }

/-- Witness for C7: with masking on and no override string, the filter
is dropped, the rewrite uses the node's filename with format "raw", and
the set-backing failure yields a negative return. -/
theorem stream_prepare_rewrites_backing_witness :
    (stream_prepare none true prepEnvW).filterDropped = true ∧
    (stream_prepare none true prepEnvW).ret < 0 ∧
    (stream_prepare none true prepEnvW).base_id = some "base.img" ∧
    (stream_prepare none true prepEnvW).base_fmt = some "raw" := by
  have h := stream_prepare_rewrites_backing none true prepEnvW
  have h3 := h.2.2 rfl
  have h4 := h3.2.2.2 _ rfl
  exact ⟨h.1, h3.2.1 rfl, h4.1, by simpa using h4.2 _ rfl⟩

/-- C8 (code bug): `iops_tracker_get_iops` releases the mutex before it
calls `iops_tracker_init`, so its sample-and-reset is two separate
atomic steps, and a concurrent `iops_tracker_update` may land between
the locked read and the unlocked reset.  The history below — update 5;
locked read (sample counts 5); update 3; unlocked reset; second locked
read (counts 0); reset — is an interleaving of one sampler thread
(two `iops_tracker_get_iops` calls) and one updater thread admitted by
the source's locking, yet the two samples count 5 + 0 = 5 operations
and leave a counter of 0 while 8 were recorded: the update of 3
crossing the reset boundary is lost, contradicting atomicity of
sample-and-reset. -/
theorem iops_tracker_lost_update :
    Interleave samplerTwice updaterProg lostUpdateHistory ∧
    execTracker lostUpdateHistory 0 = (0, [5, 0]) ∧
    totalRecorded lostUpdateHistory = 8 ∧
    ¬ ((execTracker lostUpdateHistory 0).2.foldl (fun a b => a + b) 0 +
        (execTracker lostUpdateHistory 0).1 = totalRecorded lostUpdateHistory) := by
  refine ⟨?_, by decide, by decide, by decide⟩
  exact Interleave.right (Interleave.left (Interleave.right
    (Interleave.left (Interleave.left (Interleave.left Interleave.nil)))))

/-- C10: the assertion prologue of `stream_start` proceeds exactly when
`bottom` is mutually exclusive both with `base` and with the
backing-file override string (`assert(!(base && bottom))` followed by
`assert(!(backing_file_str && bottom))`). -/
theorem stream_start_bottom_exclusive (base bottom backing_file_str : Bool) :
    stream_start_check base bottom backing_file_str = StartCheck.proceed ↔
      (¬ (base = true ∧ bottom = true) ∧
        ¬ (backing_file_str = true ∧ bottom = true)) := by
  cases base <;> cases bottom <;> cases backing_file_str <;>
    simp [stream_start_check]

/-- Witness for C10: base with no bottom proceeds; base together with
bottom trips the assertion. -/
theorem stream_start_bottom_exclusive_witness :
    stream_start_check true false true = StartCheck.proceed ∧
    ¬ stream_start_check true true false = StartCheck.proceed := by
  constructor
  · exact (stream_start_bottom_exclusive true false true).mpr (by simp)
  · intro h
    have hx := (stream_start_bottom_exclusive true true false).mp h
    simp at hx
